import Mathlib

/-!
Shallow embedding of the nowplaying-backend server (src/server.js), covering
the `/now-playing` handler (pass-through and stable modes, the per-token
state store `lastByToken`, the stale-sample guard and the early-next-track
suppression guard) and the `/login` return-path sanitization of the hardened
server variant (src/unnamed/part_001).

JavaScript numbers are modelled as `Int` (all values involved are integral
epoch-milliseconds, durations or HTTP status codes).  The one division in
the code, `estLocal / prevDuration >= 0.92`, is evaluated only under the
short-circuited test `prevDuration > 0`; for a positive denominator it is
equivalent to the integer inequality `92 * prevDuration <= 100 * estLocal`,
which is how it is embedded (the equivalence with the claim's division form
over `ℚ` is proved in `earlySwitch_suppression_iff` below).  Fields whose
JavaScript value may be `undefined` or of the wrong type are modelled as
`Option`; `typeof x === 'number'` becomes a match on the option.  JavaScript
string predicates are modelled on the character list: `s.startsWith('/')`
inspects the first character, `s.startsWith('//')` the first two, and the
falsiness of `s.trim()` is "every character of `s` is whitespace".
-/

namespace NowPlaying

/-- A track object as read by the server: `item.id` (compared with `!==`)
and `item.duration_ms` (read through `Number(...) || 0`; `none` models an
absent or non-numeric field, which `Number` sends to `NaN` and `|| 0` to 0). -/
structure Item where
  id : String
  duration_ms : Option Int
deriving DecidableEq, Repr

/-- An upstream 200 response body, restricted to the fields the server reads.
`is_playing` is the truth value of `!!body.is_playing`; `progress_ms` and
`timestamp` are `some` exactly when `typeof` is `'number'`;
`currently_playing_type` is `some` exactly when the field is truthy. -/
structure Body where
  item : Option Item
  is_playing : Bool
  progress_ms : Option Int
  timestamp : Option Int
  currently_playing_type : Option String
deriving DecidableEq, Repr

/-- The `body` argument of the request callback: either a JavaScript object
(`typeof body === 'object'`) or anything else (undefined, string, number…). -/
inductive JsBody where
  | notObj
  | obj (b : Body)
deriving DecidableEq, Repr

/-- Whether `typeof body === 'object'` holds. -/
def JsBody.isObjB : JsBody → Bool
  | .notObj => false
  | .obj _ => true

/-- Outcome of the outbound upstream call, as the `(error, response, body)`
callback arguments: `error` is the truthiness of the transport error,
`statusCode` is `response.statusCode` (`none` when `response` is undefined). -/
structure UpstreamResult where
  error : Bool
  statusCode : Option Int
  body : JsBody
deriving DecidableEq, Repr

/-- Status extraction `(response && response.statusCode) || 500` — an absent
response, or a falsy (zero) status code, becomes 500. -/
def statusOf (u : UpstreamResult) : Int :=
  match u.statusCode with
  | some s => if s = 0 then 500 else s
  | none => 500

/-- The normalized sample built in stable mode (lines 154-160 of server.js). -/
structure Sample where
  item : Option Item
  is_playing : Bool
  progress_ms : Int
  timestamp : Int
  currently_playing_type : Option String
deriving DecidableEq, Repr

/-- Snapshot normalization (stable mode): `item: body.item || null`,
`is_playing: !!body.is_playing`,
`progress_ms: typeof body.progress_ms === 'number' ? body.progress_ms : 0`,
`timestamp: typeof body.timestamp === 'number' ? body.timestamp : server_now`,
`currently_playing_type: body.currently_playing_type || null`. -/
def normalize (b : Body) (server_now : Int) : Sample :=
  { item := b.item
  , is_playing := b.is_playing
  , progress_ms := match b.progress_ms with | some v => v | none => 0
  , timestamp := match b.timestamp with | some v => v | none => server_now
  , currently_playing_type := b.currently_playing_type }

/-- A value stored in the per-token map `lastByToken`.  Both write paths
(the 204 path and the accept path) set all seven fields. -/
structure StoreVal where
  item : Option Item
  is_playing : Bool
  progress_ms : Int
  timestamp : Int
  server_now : Int
  accepted_at : Int
  source_status : Int
deriving DecidableEq, Repr

/-- Annotation flag set when a guard re-serves the previous state. -/
inductive GuardFlag where
  | staleGuard
  | earlySwitch
deriving DecidableEq, Repr

/-- The externally visible `/now-playing` response.
`missingToken` is the 400 `{ error: 'Missing access token' }` body;
`emptyResp sn st m` is the `nothingPlaying` shape
`{ item: null, is_playing: false, progress_ms: 0, timestamp: sn, server_now: sn, source_status: st }`
optionally extended with an `error` marker `m`;
`passThrough b sn` is `{ ...body, server_now: sn }`;
`reserve l sn f` is `{ ...last, server_now: sn }` plus the annotation `f`;
`acceptResp v` is the freshly accepted record (which already carries
`server_now`). -/
inductive Outcome where
  | missingToken
  | emptyResp (server_now : Int) (source_status : Int) (errMark : Option String)
  | passThrough (b : Body) (server_now : Int)
  | reserve (last : StoreVal) (server_now : Int) (flag : GuardFlag)
  | acceptResp (v : StoreVal)
deriving DecidableEq, Repr

/-- HTTP status of a response: 400 for the missing-token body, 200 otherwise. -/
def Outcome.respStatus : Outcome → Int
  | .missingToken => 400
  | _ => 200

/-- The `item` field of the response body (`none` = JSON `null`/absent). -/
def Outcome.respItem : Outcome → Option Item
  | .missingToken => none
  | .emptyResp _ _ _ => none
  | .passThrough b _ => b.item
  | .reserve l _ _ => l.item
  | .acceptResp v => v.item

/-- The `is_playing` field of the response body (false when absent). -/
def Outcome.respIsPlaying : Outcome → Bool
  | .missingToken => false
  | .emptyResp _ _ _ => false
  | .passThrough b _ => b.is_playing
  | .reserve l _ _ => l.is_playing
  | .acceptResp v => v.is_playing

/-- The `progress_ms` field of the response body (0 when absent). -/
def Outcome.respProgress : Outcome → Int
  | .missingToken => 0
  | .emptyResp _ _ _ => 0
  | .passThrough b _ => match b.progress_ms with | some v => v | none => 0
  | .reserve l _ _ => l.progress_ms
  | .acceptResp v => v.progress_ms

/-- Pass-through mode (lines 128-140 of server.js): on transport error return
`nothingPlaying`; on 204 return `nothingPlaying` with `source_status: 204`;
on non-200 or non-object body return `nothingPlaying` with
`error: 'spotify_non_200'`; otherwise return the upstream payload with only
`server_now` added. -/
def nowPlayingPass (up : UpstreamResult) (server_now : Int) : Outcome :=
  let status := statusOf up
  if up.error then .emptyResp server_now status none
  else if status = 204 then .emptyResp server_now 204 none
  else
    match up.body with
    | .obj b =>
        if status = 200 then .passThrough b server_now
        else .emptyResp server_now status (some "spotify_non_200")
    | .notObj => .emptyResp server_now status (some "spotify_non_200")

/-- The record written by the accept path (lines 181-189 of server.js). -/
def acceptState (sample : Sample) (server_now : Int) : StoreVal :=
  { item := sample.item
  , is_playing := sample.is_playing
  , progress_ms := sample.progress_ms
  , timestamp := sample.timestamp
  , server_now := server_now
  , accepted_at := server_now
  , source_status := 200 }

/-- Line 171, `(last.item && Number(last.item.duration_ms)) || 0`: an absent or non-numeric `duration_ms` becomes 0. -/
def prevDurationOf (li : Item) : Int :=
  match li.duration_ms with | some d => d | none => 0

/-- Line 172, `server_now - (last.accepted_at || server_now)`: a falsy (zero) `accepted_at` makes the elapsed time zero. -/
def elapsedOf (l : StoreVal) (server_now : Int) : Int :=
  server_now - (if l.accepted_at = 0 then server_now else l.accepted_at)

/-- Line 173, `last.is_playing ? Math.min(last.progress_ms + elapsed,
prevDuration || Infinity) : last.progress_ms`: a zero
`prevDuration` removes the cap (min with Infinity). -/
def estLocalOf (l : StoreVal) (li : Item) (server_now : Int) : Int :=
  if l.is_playing then
    (if prevDurationOf li = 0 then l.progress_ms + elapsedOf l server_now
     else min (l.progress_ms + elapsedOf l server_now) (prevDurationOf li))
  else l.progress_ms

/-- Line 174, `prevDuration > 0 && (estLocal / prevDuration) >= 0.92`.  The division is only decisive when `prevDuration > 0` (the
conjunction short-circuits otherwise), where it is exactly the integer
inequality `92 * prevDuration <= 100 * estLocal`. -/
def nearEndOf (l : StoreVal) (li : Item) (server_now : Int) : Bool :=
  decide (0 < prevDurationOf li) &&
    decide (92 * prevDurationOf li ≤ 100 * estLocalOf l li server_now)

/-- Guard 2 condition (lines 169-179 of server.js): fires when both the
previous state and the sample carry an item, the ids differ
(`last.item.id !== sample.item.id`), the previous track is not near its end
and the new sample's progress is below 1200 ms
(`!nearEnd && newIsYoung`). -/
def guard2Fires (l : StoreVal) (s : Sample) (server_now : Int) : Bool :=
  match l.item, s.item with
  | some li, some si =>
      if li.id = si.id then false
      else (!nearEndOf l li server_now) && decide (s.progress_ms < 1200)
  | _, _ => false

/-- Stable-mode decision on a normalized sample (lines 162-191 of server.js):
Guard 1 (stale sample, `sample.timestamp + 1000 < last.timestamp`) first,
then Guard 2 (early next-track), otherwise accept and write the store.
Second component: the store write (`none` = no write). -/
def stableDecide (last : Option StoreVal) (sample : Sample) (server_now : Int) :
    Outcome × Option StoreVal :=
  match last with
  | none => (.acceptResp (acceptState sample server_now), some (acceptState sample server_now))
  | some l =>
      if sample.timestamp + 1000 < l.timestamp then
        (.reserve l server_now .staleGuard, none)
      else if guard2Fires l sample server_now then
        (.reserve l server_now .earlySwitch, none)
      else
        (.acceptResp (acceptState sample server_now), some (acceptState sample server_now))

/-- The value written by the 204 path:
`{ ...nothingPlaying, accepted_at: server_now }` (line 146). -/
def emptyStoreVal (server_now : Int) (status : Int) : StoreVal :=
  { item := none
  , is_playing := false
  , progress_ms := 0
  , timestamp := server_now
  , server_now := server_now
  , accepted_at := server_now
  , source_status := status }

/-- Stable mode (lines 142-191 of server.js), for one credential: given the
upstream callback result, the wall clock `server_now` and the previously
stored value, produce the response and the store write (`none` = no write). -/
def nowPlayingStable (up : UpstreamResult) (server_now : Int) (last : Option StoreVal) :
    Outcome × Option StoreVal :=
  let status := statusOf up
  if up.error then (.emptyResp server_now status none, none)
  else if status = 204 then
    (.emptyResp server_now status none, some (emptyStoreVal server_now status))
  else
    match up.body with
    | .obj b =>
        if status = 200 then stableDecide last (normalize b server_now) server_now
        else (.emptyResp server_now status (some "spotify_non_200"), none)
    | .notObj => (.emptyResp server_now status (some "spotify_non_200"), none)

/-- Request query parameters of `/now-playing`: `none` models an absent
parameter, `some ""` a present-but-empty one. -/
structure Query where
  access_token : Option String
  stable : Option String
deriving DecidableEq, Repr

/-- The per-token state store `lastByToken`. -/
def Store : Type := String → Option StoreVal

/-- Map update `lastByToken.set(token, v)`. -/
def Store.set (st : Store) (k : String) (v : StoreVal) : Store :=
  fun k2 => if k2 = k then some v else st k2

/-- The empty store (fresh process). -/
def Store.empty : Store := fun _ => none

/-- The full `/now-playing` handler (lines 94-193 of server.js): a missing or
empty (falsy) `access_token` yields the 400 body before the upstream call;
`stable === '1'` routes through the stabilization guard and may write
`lastByToken`; otherwise pass-through mode runs without touching the store. -/
def handleNowPlaying (q : Query) (up : UpstreamResult) (server_now : Int) (store : Store) :
    Outcome × Store :=
  match q.access_token with
  | none => (.missingToken, store)
  | some tok =>
      if tok = "" then (.missingToken, store)
      else if q.stable = some "1" then
        match nowPlayingStable up server_now (store tok) with
        | (o, some v) => (o, store.set tok v)
        | (o, none) => (o, store)
      else (nowPlayingPass up server_now, store)

/-- Predicate `ret.startsWith('/')`: the first character is `'/'`. -/
def firstIsSlash (s : String) : Bool :=
  match s.data with
  | [] => false
  | c :: _ => c == '/'

/-- Predicate `ret.startsWith('//')`: the first two characters are `'/'`. -/
def firstTwoAreSlash (s : String) : Bool :=
  match s.data with
  | c1 :: c2 :: _ => c1 == '/' && c2 == '/'
  | _ => false

/-- Falsiness of `ret.trim()`: the string is empty or all-whitespace. -/
def strBlank (s : String) : Bool :=
  s.data.all fun c => c.isWhitespace

/-- Function `sanitizeReturnPath` of the hardened server variant
(src/unnamed/part_001 lines 154-161): non-strings (`none`), blank strings,
strings not starting with `/`, and protocol-relative `//...` strings all
fall back to `/spotify-overlay`. -/
def sanitizeReturnPath (ret : Option String) : String :=
  match ret with
  | none => "/spotify-overlay"
  | some s =>
      if strBlank s then "/spotify-overlay"
      else if firstIsSlash s = false then "/spotify-overlay"
      else if firstTwoAreSlash s then "/spotify-overlay"
      else s

/-- The `state` payload of the `/login` redirect of the hardened variant:
`JSON.stringify({ n: nonce, ret })`. -/
structure LoginState where
  n : String
  ret : String
deriving DecidableEq, Repr

/-- Handler `/login` of the hardened variant (src/unnamed/part_001 lines 168-185):
`ret = sanitizeReturnPath(req.query.return || '/spotify-overlay')` is
embedded, with the nonce, in the redirect's `state` parameter.  A falsy
query value (absent, or present but empty) first becomes the fallback. -/
def loginState (nonce : String) (qret : Option String) : LoginState :=
  { n := nonce
  , ret := sanitizeReturnPath
      (match qret with
       | none => some "/spotify-overlay"
       | some s => if s = "" then some "/spotify-overlay" else some s) }

/-- Spec-side track duration of the previous state, from the claim's words
(`previous.trackDurationMs`, 0 when absent per the spec's data model). -/
def specDuration (li : Item) : Int :=
  match li.duration_ms with | some d => d | none => 0

/-- Spec-side estimated local progress, from the claim's words:
`min(previous.progressMs + (nowMs - previous.acceptedAtMs), previous.trackDurationMs)`
when `previous.isPlaying`, `previous.progressMs` unchanged when paused. -/
def specEstLocal (l : StoreVal) (D : Int) (nowMs : Int) : Int :=
  if l.is_playing then min (l.progress_ms + (nowMs - l.accepted_at)) D
  else l.progress_ms

/-- Spec-side `nearEnd`, from the claim's words: the previous track's
duration is positive and the estimated local progress divided by the
duration is at least 0.92 (stated over `ℚ`, as the claim's real-number
division). -/
def specNearEnd (l : StoreVal) (D : Int) (nowMs : Int) : Prop :=
  0 < D ∧ (92 : ℚ)/100 ≤ (specEstLocal l D nowMs : ℚ) / (D : ℚ)

/-- Concrete fixtures used by witnesses and counterexamples. -/
def trackA : Item := ⟨"trackA", some 200000⟩

def trackB : Item := ⟨"trackB", some 180000⟩

def trackNoDur : Item := ⟨"trackC", none⟩

/-- Previous accepted state at 50% of a 200000 ms playing track. -/
def prevHalf : StoreVal := ⟨some trackA, true, 100000, 100000, 50, 50, 200⟩

/-- Previous accepted state at 92.5% of a 200000 ms playing track. -/
def prevNear : StoreVal := ⟨some trackA, true, 185000, 100000, 50, 50, 200⟩

/-- Previous accepted state whose track has no duration. -/
def prevNoDur : StoreVal := ⟨some trackNoDur, true, 100000, 100000, 50, 50, 200⟩

/-- A different-track sample with progress 500 ms. -/
def newTrackSample : Sample := ⟨some trackB, true, 500, 100500, none⟩

def bodyB1 : Body := ⟨some trackA, true, some 0, some 100000, none⟩

def bodyB2 : Body := ⟨some trackB, true, some 500, some 100500, none⟩

def bodyStale : Body := ⟨some trackB, true, some 500, some 98500, none⟩

def bodyNegProgress : Body := ⟨some trackA, true, some (-5), some 100, none⟩

def upOkB1 : UpstreamResult := ⟨false, some 200, .obj bodyB1⟩

def upOkB2 : UpstreamResult := ⟨false, some 200, .obj bodyB2⟩

def upOkStale : UpstreamResult := ⟨false, some 200, .obj bodyStale⟩

def up204 : UpstreamResult := ⟨false, some 204, .notObj⟩

def upErr : UpstreamResult := ⟨true, none, .notObj⟩

def qTok : Query := ⟨some "tok", none⟩

def qTokStable : Query := ⟨some "tok", some "1"⟩

def qEmptyTok : Query := ⟨some "", none⟩

/-- The value the accept path stores for `bodyB1` at wall clock 10. -/
def storeVal1 : StoreVal := acceptState (normalize bodyB1 10) 10

/-- The value the 204 path stores at wall clock 11. -/
def storeVal204 : StoreVal := emptyStoreVal 11 204

/-- The value the accept path stores for `bodyB2` at wall clock 500000. -/
def storeVal2 : StoreVal := acceptState (normalize bodyB2 500000) 500000

end NowPlaying

namespace NowPlaying

theorem elapsedOf_eq (l : StoreVal) (n : Int) (h : l.accepted_at ≠ 0) :
    elapsedOf l n = n - l.accepted_at := by
  unfold elapsedOf
  rw [if_neg h]

theorem nearEndOf_iff_specNearEnd (l : StoreVal) (li : Item) (n : Int)
    (h : l.accepted_at ≠ 0) :
    nearEndOf l li n = true ↔ specNearEnd l (specDuration li) n := by
  have hD : specDuration li = prevDurationOf li := rfl
  unfold nearEndOf specNearEnd
  rw [hD]
  by_cases hpos : 0 < prevDurationOf li
  · have hne : prevDurationOf li ≠ 0 := by omega
    have hE : estLocalOf l li n = specEstLocal l (prevDurationOf li) n := by
      unfold estLocalOf specEstLocal
      rw [elapsedOf_eq l n h, if_neg hne]
    have hDQ : (0 : ℚ) < (prevDurationOf li : ℚ) := by exact_mod_cast hpos
    rw [hE]
    simp only [Bool.and_eq_true, decide_eq_true_eq]
    rw [div_le_div_iff₀ (by norm_num) hDQ]
    constructor
    · rintro ⟨h1, h2⟩
      refine ⟨h1, ?_⟩
      have h3 : (92 * prevDurationOf li : ℚ) ≤ (100 * specEstLocal l (prevDurationOf li) n : ℚ) := by
        exact_mod_cast h2
      linarith
    · rintro ⟨h1, h2⟩
      refine ⟨h1, ?_⟩
      have h3 : (92 * prevDurationOf li : ℚ) ≤ (100 * specEstLocal l (prevDurationOf li) n : ℚ) := by
        linarith
      exact_mod_cast h3
  · simp [hpos]

theorem guard2Fires_iff (l : StoreVal) (s : Sample) (n : Int) (li si : Item)
    (hl : l.item = some li) (hs : s.item = some si) (hid : li.id ≠ si.id)
    (hacc : l.accepted_at ≠ 0) :
    guard2Fires l s n = true ↔
      (¬ specNearEnd l (specDuration li) n ∧ s.progress_ms < 1200) := by
  unfold guard2Fires
  rw [hl, hs]
  dsimp only
  rw [if_neg hid]
  rw [← nearEndOf_iff_specNearEnd l li n hacc]
  simp [Bool.and_eq_true, Bool.not_eq_true']

end NowPlaying
namespace NowPlaying

theorem stableDecide_cases (last : Option StoreVal) (sample : Sample) (n : Int) :
    (last = none ∧ stableDecide last sample n =
        (.acceptResp (acceptState sample n), some (acceptState sample n))) ∨
    (∃ l, last = some l ∧ sample.timestamp + 1000 < l.timestamp ∧
        stableDecide last sample n = (.reserve l n .staleGuard, none)) ∨
    (∃ l, last = some l ∧ ¬ sample.timestamp + 1000 < l.timestamp ∧
        guard2Fires l sample n = true ∧
        stableDecide last sample n = (.reserve l n .earlySwitch, none)) ∨
    (∃ l, last = some l ∧ ¬ sample.timestamp + 1000 < l.timestamp ∧
        guard2Fires l sample n = false ∧
        stableDecide last sample n =
          (.acceptResp (acceptState sample n), some (acceptState sample n))) := by
  cases last with
  | none => exact Or.inl ⟨rfl, rfl⟩
  | some l =>
      by_cases hst : sample.timestamp + 1000 < l.timestamp
      · exact Or.inr (Or.inl ⟨l, rfl, hst, by simp [stableDecide, hst]⟩)
      · by_cases hg : guard2Fires l sample n = true
        · exact Or.inr (Or.inr (Or.inl ⟨l, rfl, hst, hg, by simp [stableDecide, hst, hg]⟩))
        · refine Or.inr (Or.inr (Or.inr ⟨l, rfl, hst, by simpa using hg, ?_⟩))
          simp [stableDecide, hst, hg]

theorem nowPlayingStable_cases (up : UpstreamResult) (n : Int) (last : Option StoreVal) :
    (up.error = true ∧
        nowPlayingStable up n last = (.emptyResp n (statusOf up) none, none)) ∨
    (up.error = false ∧ statusOf up = 204 ∧
        nowPlayingStable up n last =
          (.emptyResp n (statusOf up) none, some (emptyStoreVal n (statusOf up)))) ∨
    (up.error = false ∧ statusOf up ≠ 204 ∧
        (statusOf up ≠ 200 ∨ up.body.isObjB = false) ∧
        nowPlayingStable up n last =
          (.emptyResp n (statusOf up) (some "spotify_non_200"), none)) ∨
    (∃ b, up.error = false ∧ statusOf up = 200 ∧ up.body = .obj b ∧
        nowPlayingStable up n last = stableDecide last (normalize b n) n) := by
  rcases up with ⟨err, sc, body⟩
  cases err with
  | true => exact Or.inl ⟨rfl, rfl⟩
  | false =>
      by_cases h204 : statusOf ⟨false, sc, body⟩ = 204
      · exact Or.inr (Or.inl ⟨rfl, h204, by simp [nowPlayingStable, h204]⟩)
      · cases body with
        | notObj =>
            exact Or.inr (Or.inr (Or.inl ⟨rfl, h204, Or.inr rfl,
              by simp [nowPlayingStable, h204]⟩))
        | obj b =>
            by_cases h200 : statusOf ⟨false, sc, .obj b⟩ = 200
            · exact Or.inr (Or.inr (Or.inr ⟨b, rfl, h200, rfl,
                by simp [nowPlayingStable, h204, h200]⟩))
            · exact Or.inr (Or.inr (Or.inl ⟨rfl, h204, Or.inl h200,
                by simp [nowPlayingStable, h204, h200]⟩))

theorem nowPlayingPass_cases (up : UpstreamResult) (n : Int) :
    (up.error = true ∧ nowPlayingPass up n = .emptyResp n (statusOf up) none) ∨
    (up.error = false ∧ statusOf up = 204 ∧
        nowPlayingPass up n = .emptyResp n (statusOf up) none) ∨
    (up.error = false ∧ statusOf up ≠ 204 ∧
        (statusOf up ≠ 200 ∨ up.body.isObjB = false) ∧
        nowPlayingPass up n = .emptyResp n (statusOf up) (some "spotify_non_200")) ∨
    (∃ b, up.error = false ∧ statusOf up = 200 ∧ up.body = .obj b ∧
        nowPlayingPass up n = .passThrough b n) := by
  rcases up with ⟨err, sc, body⟩
  cases err with
  | true => exact Or.inl ⟨rfl, rfl⟩
  | false =>
      by_cases h204 : statusOf ⟨false, sc, body⟩ = 204
      · exact Or.inr (Or.inl ⟨rfl, h204, by simp [nowPlayingPass, h204]⟩)
      · cases body with
        | notObj =>
            exact Or.inr (Or.inr (Or.inl ⟨rfl, h204, Or.inr rfl,
              by simp [nowPlayingPass, h204]⟩))
        | obj b =>
            by_cases h200 : statusOf ⟨false, sc, .obj b⟩ = 200
            · exact Or.inr (Or.inr (Or.inr ⟨b, rfl, h200, rfl,
                by simp [nowPlayingPass, h204, h200]⟩))
            · exact Or.inr (Or.inr (Or.inl ⟨rfl, h204, Or.inl h200,
                by simp [nowPlayingPass, h204, h200]⟩))

theorem handleNowPlaying_fst (q : Query) (up : UpstreamResult) (n : Int) (store : Store)
    (t : String) (ht : q.access_token = some t) (hne : t ≠ "") :
    (handleNowPlaying q up n store).1 =
      (if q.stable = some "1" then (nowPlayingStable up n (store t)).1
       else nowPlayingPass up n) := by
  unfold handleNowPlaying
  rw [ht]
  dsimp only
  rw [if_neg hne]
  by_cases hstable : q.stable = some "1"
  · rw [if_pos hstable, if_pos hstable]
    generalize nowPlayingStable up n (store t) = r
    rcases r with ⟨o, w⟩
    cases w <;> rfl
  · rw [if_neg hstable, if_neg hstable]

end NowPlaying
namespace NowPlaying

/-- C1: in stable mode, with a previous accepted state and a new sample that
both name a track with differing identities (and the sample not caught by the
stale guard), the guard rejects the sample as `early_switch_suppressed`,
re-serving the previous state, if and only if NOT nearEnd AND newIsYoung,
where nearEnd and newIsYoung are exactly the claim's formulas
(`specNearEnd`, `progress_ms < 1200`). -/
theorem earlySwitch_suppression_iff (l : StoreVal) (s : Sample) (n : Int) (li si : Item)
    (hl : l.item = some li) (hs : s.item = some si) (hid : li.id ≠ si.id)
    (hacc : 0 < l.accepted_at)
    (hfresh : ¬ s.timestamp + 1000 < l.timestamp) :
    stableDecide (some l) s n = (.reserve l n .earlySwitch, none) ↔
      (¬ specNearEnd l (specDuration li) n ∧ s.progress_ms < 1200) := by
  rw [← guard2Fires_iff l s n li si hl hs hid (by omega)]
  unfold stableDecide
  dsimp only
  rw [if_neg hfresh]
  by_cases hg : guard2Fires l s n = true
  · simp [hg]
  · simp [hg]

/-- C1 witness: at the claim's example (previous at 50% of a 200000 ms
playing track, different-track sample with progress 500) the equivalence is
discharged and the guard indeed suppresses. -/
theorem earlySwitch_suppression_iff_witness :
    (stableDecide (some prevHalf) newTrackSample 50 =
        (.reserve prevHalf 50 .earlySwitch, none) ↔
      (¬ specNearEnd prevHalf (specDuration trackA) 50 ∧
        newTrackSample.progress_ms < 1200)) ∧
    stableDecide (some prevHalf) newTrackSample 50 =
      (.reserve prevHalf 50 .earlySwitch, none) :=
  ⟨earlySwitch_suppression_iff prevHalf newTrackSample 50 trackA trackB rfl rfl
      (by decide) (by decide) (by decide), by decide⟩

/-- C2: in stable mode, when a previous accepted state exists and the
normalized sample's timestamp is more than 1000 ms behind it, the request is
rejected with `stale_guard: true`, the previous state is re-served verbatim
(plus `server_now` and the flag), the store is not written, and the response
status is 200.  The theorem holds for every body, so in particular for ones
the early-switch guard would also have caught: the stale check comes first. -/
theorem staleGuard_rejects (b : Body) (n : Int) (l : StoreVal)
    (hst : (normalize b n).timestamp + 1000 < l.timestamp) :
    nowPlayingStable ⟨false, some 200, .obj b⟩ n (some l) =
      (.reserve l n .staleGuard, none) ∧
    (Outcome.reserve l n .staleGuard).respStatus = 200 := by
  refine ⟨?_, rfl⟩
  have h : nowPlayingStable ⟨false, some 200, .obj b⟩ n (some l) =
      stableDecide (some l) (normalize b n) n := rfl
  rw [h]
  unfold stableDecide
  dsimp only
  rw [if_pos hst]

/-- C2 witness: previous timestamp 100000, sample timestamp 98500 (1.5 s
behind) is rejected as stale. -/
theorem staleGuard_rejects_witness :
    nowPlayingStable upOkStale 60 (some prevHalf) =
      (.reserve prevHalf 60 .staleGuard, none) ∧
    (Outcome.reserve prevHalf 60 .staleGuard).respStatus = 200 :=
  staleGuard_rejects bodyStale 60 prevHalf (by decide)

/-- C5 counterexample: with a duration-less previous track (duration_ms
absent) and a different-track sample with progress 500, the guard DOES
reject the sample as `early_switch_suppressed` — the switch away from a
duration-less track is suppressed, not accepted. -/
theorem durationless_suppression_counterexample :
    prevNoDur.item = some trackNoDur ∧ trackNoDur.duration_ms = none ∧
    newTrackSample.progress_ms = 500 ∧
    stableDecide (some prevNoDur) newTrackSample 50 =
      (.reserve prevNoDur 50 .earlySwitch, none) :=
  ⟨rfl, rfl, rfl, by decide⟩

/-- C5 amended: a previous track with duration_ms 0 or absent can never
satisfy nearEnd, so an early switch away from it is suppressed precisely when
the new sample's progress is below 1200 ms (and accepted otherwise) — the
opposite of "never suppressed". -/
theorem durationless_suppression_amended (l : StoreVal) (s : Sample) (n : Int) (li si : Item)
    (hl : l.item = some li) (hs : s.item = some si) (hid : li.id ≠ si.id)
    (hdur : li.duration_ms = none ∨ li.duration_ms = some 0)
    (hfresh : ¬ s.timestamp + 1000 < l.timestamp) :
    ¬ specNearEnd l (specDuration li) n ∧
    (stableDecide (some l) s n = (.reserve l n .earlySwitch, none) ↔
      s.progress_ms < 1200) := by
  have hD : specDuration li = 0 := by
    rcases hdur with h | h <;> simp [specDuration, h]
  have hDp : prevDurationOf li = 0 := hD
  have hnear : ¬ specNearEnd l (specDuration li) n := by
    simp [specNearEnd, hD]
  refine ⟨hnear, ?_⟩
  have hg : guard2Fires l s n = decide (s.progress_ms < 1200) := by
    unfold guard2Fires
    rw [hl, hs]
    dsimp only
    rw [if_neg hid]
    have hne : nearEndOf l li n = false := by
      unfold nearEndOf
      simp [hDp]
    rw [hne]
    simp
  unfold stableDecide
  dsimp only
  rw [if_neg hfresh]
  by_cases hp : s.progress_ms < 1200
  · simp [hg, hp]
  · simp [hg, hp]

/-- C5 amended witness: the duration-less example instantiated. -/
theorem durationless_suppression_amended_witness :
    ¬ specNearEnd prevNoDur (specDuration trackNoDur) 50 ∧
    (stableDecide (some prevNoDur) newTrackSample 50 =
        (.reserve prevNoDur 50 .earlySwitch, none) ↔
      newTrackSample.progress_ms < 1200) :=
  durationless_suppression_amended prevNoDur newTrackSample 50 trackNoDur trackB rfl rfl
    (by decide) (Or.inl rfl) (by decide)

/-- C6 counterexample: an upstream body with numeric progress_ms = -5 is
normalized to -5, not 0 — the normalizer does not zero negative progress. -/
theorem negative_progress_counterexample :
    bodyNegProgress.progress_ms = some (-5) ∧
    (normalize bodyNegProgress 7).progress_ms = -5 ∧
    ¬ (normalize bodyNegProgress 7).progress_ms = 0 :=
  ⟨rfl, rfl, by decide⟩

/-- C6 amended: the normalizer defaults progress_ms to 0 only when the field
is not a number; every numeric value, negative ones included, passes through
unchanged (no clamping anywhere). -/
theorem normalize_progress_amended (b : Body) (n : Int) :
    (normalize b n).progress_ms = Option.getD b.progress_ms 0 ∧
    (∀ v, b.progress_ms = some v → (normalize b n).progress_ms = v) := by
  constructor
  · cases hb : b.progress_ms <;> simp [normalize, hb]
  · intro v hv
    simp [normalize, hv]

/-- C6 amended witness: the negative-progress body instantiated. -/
theorem normalize_progress_amended_witness :
    (normalize bodyNegProgress 7).progress_ms = -5 :=
  (normalize_progress_amended bodyNegProgress 7).2 (-5) rfl

end NowPlaying
namespace NowPlaying

theorem stableDecide_respStatus (last : Option StoreVal) (sample : Sample) (n : Int) :
    ((stableDecide last sample n).1).respStatus = 200 := by
  rcases stableDecide_cases last sample n with
    ⟨-, h⟩ | ⟨l, -, -, h⟩ | ⟨l, -, -, -, h⟩ | ⟨l, -, -, -, h⟩ <;> rw [h] <;> rfl

theorem nowPlayingStable_respStatus (up : UpstreamResult) (n : Int) (last : Option StoreVal) :
    ((nowPlayingStable up n last).1).respStatus = 200 := by
  rcases nowPlayingStable_cases up n last with
    ⟨-, h⟩ | ⟨-, -, h⟩ | ⟨-, -, -, h⟩ | ⟨b, -, -, -, h⟩ <;> rw [h]
  · rfl
  · rfl
  · rfl
  · exact stableDecide_respStatus last (normalize b n) n

theorem nowPlayingPass_respStatus (up : UpstreamResult) (n : Int) :
    (nowPlayingPass up n).respStatus = 200 := by
  rcases nowPlayingPass_cases up n with
    ⟨-, h⟩ | ⟨-, -, h⟩ | ⟨-, -, -, h⟩ | ⟨b, -, -, -, h⟩ <;> rw [h] <;> rfl

/-- C3 counterexample: a request whose access_token parameter is present but
empty (`?access_token=`) is answered 400, although the parameter is not
absent — the 400 is tied to JavaScript falsiness, not absence. -/
theorem status_policy_counterexample :
    qEmptyTok.access_token = some "" ∧ ¬ qEmptyTok.access_token = none ∧
    (handleNowPlaying qEmptyTok upOkB1 5 Store.empty).1.respStatus = 400 :=
  ⟨rfl, by decide, rfl⟩

/-- C3 amended: the response status is 400 with the missing-token body exactly
when the access_token parameter is absent OR empty (falsy), in which case the
upstream result is irrelevant (the theorem holds for every `up`, so the
upstream client is never consulted) and the store is untouched; for every
other request the status is 200 — upstream 4xx/5xx are never propagated —
and on transport error, 204, non-200 or non-object body the 200 body is the
canonical empty sample (null item, is_playing false, progress_ms 0) carrying
the upstream status as diagnostic. -/
theorem status_policy_amended (q : Query) (up : UpstreamResult) (n : Int) (store : Store) :
    ((q.access_token = none ∨ q.access_token = some "") →
        handleNowPlaying q up n store = (.missingToken, store) ∧
        (Outcome.missingToken).respStatus = 400) ∧
    (∀ t, q.access_token = some t → t ≠ "" →
        ((handleNowPlaying q up n store).1).respStatus = 200 ∧
        ((up.error = true ∨ statusOf up = 204 ∨ statusOf up ≠ 200 ∨ up.body.isObjB = false) →
          ∃ m, (handleNowPlaying q up n store).1 = .emptyResp n (statusOf up) m ∧
            (Outcome.emptyResp n (statusOf up) m).respItem = none ∧
            (Outcome.emptyResp n (statusOf up) m).respIsPlaying = false ∧
            (Outcome.emptyResp n (statusOf up) m).respProgress = 0)) := by
  constructor
  · rintro (h | h) <;> exact ⟨by simp [handleNowPlaying, h], rfl⟩
  · intro t ht hne
    rw [handleNowPlaying_fst q up n store t ht hne]
    constructor
    · by_cases hstable : q.stable = some "1"
      · rw [if_pos hstable]
        exact nowPlayingStable_respStatus up n (store t)
      · rw [if_neg hstable]
        exact nowPlayingPass_respStatus up n
    · intro hfail
      have hnot200 : up.error = true ∨ statusOf up ≠ 200 ∨ up.body.isObjB = false := by
        rcases hfail with h | h | h | h
        · exact Or.inl h
        · exact Or.inr (Or.inl (by rw [h]; decide))
        · exact Or.inr (Or.inl h)
        · exact Or.inr (Or.inr h)
      by_cases hstable : q.stable = some "1"
      · rw [if_pos hstable]
        rcases nowPlayingStable_cases up n (store t) with
          ⟨he, h⟩ | ⟨he, h204, h⟩ | ⟨he, h204, hbad, h⟩ | ⟨b, he, h200, hobj, h⟩
        · exact ⟨none, by rw [h], rfl, rfl, rfl⟩
        · exact ⟨none, by rw [h], rfl, rfl, rfl⟩
        · exact ⟨some "spotify_non_200", by rw [h], rfl, rfl, rfl⟩
        · exfalso
          rcases hnot200 with hx | hx | hx
          · rw [he] at hx; exact Bool.false_ne_true hx
          · exact hx h200
          · rw [hobj] at hx; simp [JsBody.isObjB] at hx
      · rw [if_neg hstable]
        rcases nowPlayingPass_cases up n with
          ⟨he, h⟩ | ⟨he, h204, h⟩ | ⟨he, h204, hbad, h⟩ | ⟨b, he, h200, hobj, h⟩
        · exact ⟨none, by rw [h], rfl, rfl, rfl⟩
        · exact ⟨none, by rw [h], rfl, rfl, rfl⟩
        · exact ⟨some "spotify_non_200", by rw [h], rfl, rfl, rfl⟩
        · exfalso
          rcases hnot200 with hx | hx | hx
          · rw [he] at hx; exact Bool.false_ne_true hx
          · exact hx h200
          · rw [hobj] at hx; simp [JsBody.isObjB] at hx

/-- C3 amended witness: an absent token yields the 400 body for a concrete
erroring upstream, and a real token yields a 200 response. -/
theorem status_policy_amended_witness :
    handleNowPlaying ⟨none, none⟩ upErr 5 Store.empty = (.missingToken, Store.empty) ∧
    ((handleNowPlaying qTok upErr 5 Store.empty).1).respStatus = 200 :=
  ⟨((status_policy_amended ⟨none, none⟩ upErr 5 Store.empty).1 (Or.inl rfl)).1,
   ((status_policy_amended qTok upErr 5 Store.empty).2 "tok" rfl (by decide)).1⟩

end NowPlaying
namespace NowPlaying

/-- C4 counterexample: a 200 body carrying upstream timestamp 100000 is
accepted at wall clock 10; a subsequent 204 at wall clock 11 is written
unconditionally with timestamp 11, which is more than 1000 ms behind the
previously stored timestamp — the 204 write path bypasses the stale guard. -/
theorem monotonic_acceptance_counterexample :
    (nowPlayingStable upOkB1 10 none).2 = some storeVal1 ∧
    (nowPlayingStable up204 11 (some storeVal1)).2 = some storeVal204 ∧
    storeVal204.timestamp + 1000 < storeVal1.timestamp :=
  ⟨rfl, rfl, by decide⟩

/-- C4 amended: the monotonicity bound holds for every write made by the
accept path (source_status 200): the stale guard ensures the new stored
timestamp is at most 1000 ms behind the previous one.  The 204 empty-sample
path writes timestamp = server_now unconditionally and is exempt. -/
theorem accept_timestamp_monotonic (up : UpstreamResult) (n : Int) (l v : StoreVal)
    (hw : (nowPlayingStable up n (some l)).2 = some v) (hsrc : v.source_status = 200) :
    l.timestamp ≤ v.timestamp + 1000 := by
  rcases nowPlayingStable_cases up n (some l) with
    ⟨he, h⟩ | ⟨he, h204, h⟩ | ⟨he, h204, hbad, h⟩ | ⟨b, he, h200, hobj, h⟩
  · rw [h] at hw; exact absurd hw (by simp)
  · rw [h] at hw
    have hv : v = emptyStoreVal n (statusOf up) := by simpa using hw.symm
    rw [hv] at hsrc
    simp [emptyStoreVal] at hsrc
    omega
  · rw [h] at hw; exact absurd hw (by simp)
  · rw [h] at hw
    rcases stableDecide_cases (some l) (normalize b n) n with
      ⟨hnone, h2⟩ | ⟨l2, hl2, hst, h2⟩ | ⟨l2, hl2, hst, hg, h2⟩ | ⟨l2, hl2, hst, hg, h2⟩
    · exact absurd hnone (by simp)
    · rw [h2] at hw; exact absurd hw (by simp)
    · rw [h2] at hw; exact absurd hw (by simp)
    · rw [h2] at hw
      have hv : v = acceptState (normalize b n) n := by simpa using hw.symm
      have hl : l = l2 := by simpa using hl2
      rw [hv]
      simp only [acceptState]
      rw [hl]
      omega

/-- C4 amended witness: an accepted different-track sample whose timestamp
is ahead of the stored one satisfies the bound. -/
theorem accept_timestamp_monotonic_witness :
    (nowPlayingStable upOkB2 500000 (some storeVal1)).2 = some storeVal2 ∧
    storeVal2.source_status = 200 ∧
    storeVal1.timestamp ≤ storeVal2.timestamp + 1000 :=
  ⟨by decide, rfl,
   accept_timestamp_monotonic upOkB2 500000 storeVal1 storeVal2 (by decide) rfl⟩

/-- C10: every value ever written into the store has accepted_at equal to
the handling request's wall clock, source_status 200 or 204, and a 204
entry is the canonical empty sample (null item, not playing, zero
progress). -/
theorem store_shape_invariant (up : UpstreamResult) (n : Int) (last : Option StoreVal)
    (v : StoreVal) (hw : (nowPlayingStable up n last).2 = some v) :
    v.accepted_at = n ∧ (v.source_status = 200 ∨ v.source_status = 204) ∧
    (v.source_status = 204 →
      v.item = none ∧ v.is_playing = false ∧ v.progress_ms = 0) := by
  rcases nowPlayingStable_cases up n last with
    ⟨he, h⟩ | ⟨he, h204, h⟩ | ⟨he, h204, hbad, h⟩ | ⟨b, he, h200, hobj, h⟩
  · rw [h] at hw; exact absurd hw (by simp)
  · rw [h] at hw
    have hv : v = emptyStoreVal n (statusOf up) := by simpa using hw.symm
    rw [hv, h204]
    exact ⟨rfl, Or.inr rfl, fun _ => ⟨rfl, rfl, rfl⟩⟩
  · rw [h] at hw; exact absurd hw (by simp)
  · rw [h] at hw
    rcases stableDecide_cases last (normalize b n) n with
      ⟨hnone, h2⟩ | ⟨l2, hl2, hst, h2⟩ | ⟨l2, hl2, hst, hg, h2⟩ | ⟨l2, hl2, hst, hg, h2⟩ <;>
      rw [h2] at hw
    · have hv : v = acceptState (normalize b n) n := by simpa using hw.symm
      rw [hv]
      exact ⟨rfl, Or.inl rfl, fun hc => absurd hc (by simp [acceptState])⟩
    · exact absurd hw (by simp)
    · exact absurd hw (by simp)
    · have hv : v = acceptState (normalize b n) n := by simpa using hw.symm
      rw [hv]
      exact ⟨rfl, Or.inl rfl, fun hc => absurd hc (by simp [acceptState])⟩

/-- C10 witness: the 204 write at wall clock 11 instantiated. -/
theorem store_shape_invariant_witness :
    storeVal204.accepted_at = 11 ∧
    (storeVal204.source_status = 200 ∨ storeVal204.source_status = 204) ∧
    (storeVal204.source_status = 204 →
      storeVal204.item = none ∧ storeVal204.is_playing = false ∧
        storeVal204.progress_ms = 0) :=
  store_shape_invariant up204 11 (some storeVal1) storeVal204 (by decide)

end NowPlaying
namespace NowPlaying

/-- C8 counterexample: with a stored entry naming a track, a stable-mode
transport error leaves the store unchanged (that part of the claim is right)
but the response is the canonical empty sample, NOT the existing entry
re-served verbatim: its item field differs from the entry's. -/
theorem store_frame_counterexample :
    (nowPlayingStable upErr 7 (some prevHalf)).1 = .emptyResp 7 500 none ∧
    (nowPlayingStable upErr 7 (some prevHalf)).2 = none ∧
    prevHalf.item = some trackA ∧
    ¬ ((nowPlayingStable upErr 7 (some prevHalf)).1).respItem = prevHalf.item :=
  ⟨rfl, rfl, rfl, by decide⟩

/-- C8 amended: the store is written only by the accept path and the 204
empty-sample path; the stale_guard and early_switch_suppressed outcomes
leave the store unchanged and re-serve the existing entry verbatim plus
server_now and the annotation; transport-error and non-200/non-object
outcomes also leave the store unchanged but serve the canonical empty
sample rather than the existing entry. -/
theorem store_writes_amended (up : UpstreamResult) (n : Int) (last : Option StoreVal) :
    (∀ v, (nowPlayingStable up n last).2 = some v →
        (nowPlayingStable up n last).1 = .acceptResp v ∨
        (statusOf up = 204 ∧
          (nowPlayingStable up n last).1 = .emptyResp n (statusOf up) none ∧
          v = emptyStoreVal n (statusOf up))) ∧
    (∀ l sn f, (nowPlayingStable up n last).1 = .reserve l sn f →
        (nowPlayingStable up n last).2 = none ∧ last = some l ∧ sn = n) ∧
    ((up.error = true ∨ (statusOf up ≠ 204 ∧ (statusOf up ≠ 200 ∨ up.body.isObjB = false))) →
        (nowPlayingStable up n last).2 = none ∧
        ((nowPlayingStable up n last).1).respStatus = 200 ∧
        ((nowPlayingStable up n last).1).respItem = none ∧
        ((nowPlayingStable up n last).1).respIsPlaying = false ∧
        ((nowPlayingStable up n last).1).respProgress = 0) := by
  rcases nowPlayingStable_cases up n last with
    ⟨he, h⟩ | ⟨he, h204, h⟩ | ⟨he, h204, hbad, h⟩ | ⟨b, he, h200, hobj, h⟩
  · refine ⟨?_, ?_, ?_⟩
    · intro v hw; rw [h] at hw; exact absurd hw (by simp)
    · intro l sn f hres; rw [h] at hres; exact absurd hres (by simp)
    · intro hf; rw [h]; exact ⟨rfl, rfl, rfl, rfl, rfl⟩
  · refine ⟨?_, ?_, ?_⟩
    · intro v hw; rw [h] at hw
      exact Or.inr ⟨h204, by rw [h], by simpa using hw.symm⟩
    · intro l sn f hres; rw [h] at hres; exact absurd hres (by simp)
    · rintro (hf | ⟨hf, -⟩)
      · rw [he] at hf; exact absurd hf (by simp)
      · exact absurd h204 hf
  · refine ⟨?_, ?_, ?_⟩
    · intro v hw; rw [h] at hw; exact absurd hw (by simp)
    · intro l sn f hres; rw [h] at hres; exact absurd hres (by simp)
    · intro hf; rw [h]; exact ⟨rfl, rfl, rfl, rfl, rfl⟩
  · rcases stableDecide_cases last (normalize b n) n with
      ⟨hnone, h2⟩ | ⟨l2, hl2, hst, h2⟩ | ⟨l2, hl2, hst, hg, h2⟩ | ⟨l2, hl2, hst, hg, h2⟩ <;>
      rw [h2] at h
    · refine ⟨?_, ?_, ?_⟩
      · intro v hw; rw [h] at hw
        exact Or.inl (by rw [h]; simpa using hw)
      · intro l sn f hres; rw [h] at hres; exact absurd hres (by simp)
      · rintro (hf | ⟨-, hf | hf⟩)
        · rw [he] at hf; exact absurd hf (by simp)
        · exact absurd h200 hf
        · rw [hobj] at hf; simp [JsBody.isObjB] at hf
    · refine ⟨?_, ?_, ?_⟩
      · intro v hw; rw [h] at hw; exact absurd hw (by simp)
      · intro l sn f hres; rw [h] at hres
        have hinj : l2 = l ∧ n = sn := by
          have := hres
          simp [Outcome.reserve.injEq] at this
          exact ⟨this.1, this.2.1⟩
        exact ⟨by rw [h], by rw [hl2, hinj.1], hinj.2.symm⟩
      · rintro (hf | ⟨-, hf | hf⟩)
        · rw [he] at hf; exact absurd hf (by simp)
        · exact absurd h200 hf
        · rw [hobj] at hf; simp [JsBody.isObjB] at hf
    · refine ⟨?_, ?_, ?_⟩
      · intro v hw; rw [h] at hw; exact absurd hw (by simp)
      · intro l sn f hres; rw [h] at hres
        have hinj : l2 = l ∧ n = sn := by
          have := hres
          simp [Outcome.reserve.injEq] at this
          exact ⟨this.1, this.2.1⟩
        exact ⟨by rw [h], by rw [hl2, hinj.1], hinj.2.symm⟩
      · rintro (hf | ⟨-, hf | hf⟩)
        · rw [he] at hf; exact absurd hf (by simp)
        · exact absurd h200 hf
        · rw [hobj] at hf; simp [JsBody.isObjB] at hf
    · refine ⟨?_, ?_, ?_⟩
      · intro v hw; rw [h] at hw
        exact Or.inl (by rw [h]; simpa using hw)
      · intro l sn f hres; rw [h] at hres; exact absurd hres (by simp)
      · rintro (hf | ⟨-, hf | hf⟩)
        · rw [he] at hf; exact absurd hf (by simp)
        · exact absurd h200 hf
        · rw [hobj] at hf; simp [JsBody.isObjB] at hf

/-- C8 amended witness: a transport error with a stored track leaves the
store unchanged and serves the empty sample; a stale rejection leaves the
store unchanged and re-serves the stored entry. -/
theorem store_writes_amended_witness :
    ((nowPlayingStable upErr 7 (some prevHalf)).2 = none ∧
      ((nowPlayingStable upErr 7 (some prevHalf)).1).respStatus = 200 ∧
      ((nowPlayingStable upErr 7 (some prevHalf)).1).respItem = none ∧
      ((nowPlayingStable upErr 7 (some prevHalf)).1).respIsPlaying = false ∧
      ((nowPlayingStable upErr 7 (some prevHalf)).1).respProgress = 0) ∧
    ((nowPlayingStable upOkStale 60 (some prevHalf)).2 = none ∧
      (some prevHalf : Option StoreVal) = some prevHalf ∧ (60 : Int) = 60) :=
  ⟨(store_writes_amended upErr 7 (some prevHalf)).2.2 (Or.inl rfl),
   (store_writes_amended upOkStale 60 (some prevHalf)).2.1 prevHalf 60 .staleGuard
     (by decide)⟩

end NowPlaying
namespace NowPlaying

/-- C7: for every request without stable=1 the handler leaves the store
untouched, the response does not depend on the store's contents, and on an
upstream 200 with an object body the payload is returned verbatim with only
server_now added. -/
theorem passThrough_bypasses_store (q : Query) (up : UpstreamResult) (n : Int)
    (store : Store) (hstable : ¬ q.stable = some "1") :
    (handleNowPlaying q up n store).2 = store ∧
    (∀ store2 : Store,
        (handleNowPlaying q up n store2).1 = (handleNowPlaying q up n store).1) ∧
    (∀ t b, q.access_token = some t → t ≠ "" → up.error = false →
        statusOf up = 200 → up.body = .obj b →
        (handleNowPlaying q up n store).1 = .passThrough b n) := by
  have hcase : ∀ st : Store, handleNowPlaying q up n st =
      (match q.access_token with
       | none => (.missingToken, st)
       | some tok => if tok = "" then (.missingToken, st) else (nowPlayingPass up n, st)) := by
    intro st
    unfold handleNowPlaying
    cases q.access_token with
    | none => rfl
    | some tok =>
        dsimp only
        by_cases htok : tok = ""
        · rw [if_pos htok, if_pos htok]
        · rw [if_neg htok, if_neg htok, if_neg hstable]
  refine ⟨?_, ?_, ?_⟩
  · rw [hcase store]
    cases q.access_token with
    | none => rfl
    | some tok =>
        dsimp only
        by_cases htok : tok = ""
        · rw [if_pos htok]
        · rw [if_neg htok]
  · intro store2
    rw [hcase store2, hcase store]
    cases q.access_token with
    | none => rfl
    | some tok =>
        dsimp only
        by_cases htok : tok = ""
        · rw [if_pos htok, if_pos htok]
        · rw [if_neg htok, if_neg htok]
  · intro t b ht hne herr hst hb
    rw [hcase store, ht]
    dsimp only
    rw [if_neg hne]
    show nowPlayingPass up n = .passThrough b n
    rcases nowPlayingPass_cases up n with
      ⟨he, h⟩ | ⟨he, h204, h⟩ | ⟨he, h204, hbad, h⟩ | ⟨b2, he, h200, hobj, h⟩
    · rw [herr] at he; exact absurd he (by simp)
    · rw [hst] at h204; exact absurd h204 (by decide)
    · rcases hbad with hx | hx
      · exact absurd hst hx
      · rw [hb] at hx; simp [JsBody.isObjB] at hx
    · rw [hb] at hobj
      have hb2 : b2 = b := by simpa using hobj.symm
      rw [h, hb2]

/-- C7 witness: two consecutive pass-through polls returning different tracks
with progress below 1200 ms are both returned verbatim, and the store stays
empty. -/
theorem passThrough_bypasses_store_witness :
    (handleNowPlaying qTok upOkB1 10 Store.empty).1 = .passThrough bodyB1 10 ∧
    (handleNowPlaying qTok upOkB1 10 Store.empty).2 = Store.empty ∧
    (handleNowPlaying qTok upOkB2 11 Store.empty).1 = .passThrough bodyB2 11 ∧
    ¬ bodyB1.item = bodyB2.item ∧
    (normalize bodyB2 11).progress_ms < 1200 :=
  ⟨(passThrough_bypasses_store qTok upOkB1 10 Store.empty (by decide)).2.2
      "tok" bodyB1 rfl (by decide) rfl rfl rfl,
   (passThrough_bypasses_store qTok upOkB1 10 Store.empty (by decide)).1,
   (passThrough_bypasses_store qTok upOkB2 11 Store.empty (by decide)).2.2
      "tok" bodyB2 rfl (by decide) rfl rfl rfl,
   by decide, by decide⟩

theorem sanitizeReturnPath_startsOk (ret : Option String) :
    firstIsSlash (sanitizeReturnPath ret) = true ∧
    firstTwoAreSlash (sanitizeReturnPath ret) = false := by
  cases ret with
  | none => exact ⟨by decide, by decide⟩
  | some s =>
      unfold sanitizeReturnPath
      dsimp only
      split_ifs with h1 h2 h3
      · exact ⟨by decide, by decide⟩
      · exact ⟨by decide, by decide⟩
      · exact ⟨by decide, by decide⟩
      · exact ⟨by simpa using h2, by simpa using h3⟩

theorem sanitizeReturnPath_rejects (s : String)
    (h : firstIsSlash s = false ∨ firstTwoAreSlash s = true) :
    sanitizeReturnPath (some s) = "/spotify-overlay" := by
  unfold sanitizeReturnPath
  dsimp only
  split_ifs with h1 h2 h3
  · rfl
  · rfl
  · rfl
  · rcases h with h | h
    · exact absurd h h2
    · exact absurd h h3

/-- C9: the /login redirect state embeds the nonce and a sanitized same-site
return path: the embedded path always starts with '/' and never with '//',
and any requested value that does not start with '/' (absolute URLs
included) or that starts with '//' is replaced by the fallback
'/spotify-overlay', never embedded as given. -/
theorem login_return_path_sanitized (nonce : String) (qret : Option String) :
    (loginState nonce qret).n = nonce ∧
    firstIsSlash (loginState nonce qret).ret = true ∧
    firstTwoAreSlash (loginState nonce qret).ret = false ∧
    (∀ s, qret = some s → (firstIsSlash s = false ∨ firstTwoAreSlash s = true) →
        (loginState nonce qret).ret = "/spotify-overlay") := by
  refine ⟨rfl, (sanitizeReturnPath_startsOk _).1, (sanitizeReturnPath_startsOk _).2, ?_⟩
  intro s hq hbad
  rw [hq]
  unfold loginState
  dsimp only
  by_cases hse : s = ""
  · rw [if_pos hse]
    decide
  · rw [if_neg hse]
    exact sanitizeReturnPath_rejects s hbad

/-- C9 witness: an absolute URL in the return parameter is replaced by the
fallback path while the nonce is embedded unchanged. -/
theorem login_return_path_sanitized_witness :
    (loginState "nonceA" (some "https://evil.example")).n = "nonceA" ∧
    (loginState "nonceA" (some "https://evil.example")).ret = "/spotify-overlay" :=
  ⟨(login_return_path_sanitized "nonceA" (some "https://evil.example")).1,
   (login_return_path_sanitized "nonceA" (some "https://evil.example")).2.2.2
     "https://evil.example" rfl (Or.inl (by decide))⟩

end NowPlaying